import Mathlib

/-!
Shallow embedding of audiomoth_server.py (AudioMothRECS_LaLuna): a small
HTTP file server for AudioMoth recordings built on CPython's
http.server.SimpleHTTPRequestHandler.  Request paths, header names and
header values are modelled as lists of characters; file contents as lists
of byte values; the directory tree served as a list of files, each given
by its relative path components (directory-scan order of the Python glob
calls is modelled by list order).  Behaviour inherited from the CPython
standard library (SimpleHTTPRequestHandler.do_GET / send_head / guess_type,
BaseHTTPRequestHandler.log_error, urllib.parse.unquote) is embedded from
the library's code, restricted to the ASCII/byte level and to the header
fields the development reasons about (Date, Server and Content-Length
headers and the HTML bodies of error pages are elided, as no statement
below concerns them).
-/

/-- Converts a Lean string literal to the list-of-characters representation
used throughout this development. -/
def chars (s : String) : List Char := s.toList

/-- ASCII lowercasing of one character, modelling Python str.lower on the
ASCII range (the only range the server's paths use). -/
def lowerChar (c : Char) : Char :=
  if 'A' ≤ c ∧ c ≤ 'Z' then Char.ofNat (c.toNat + 32) else c

/-- Models Python str.lower on a whole string. -/
def lowerStr (s : List Char) : List Char := s.map lowerChar

/-- Models Python str.endswith: does s end with the given suffix? -/
def endsWith (s suf : List Char) : Bool := decide (suf <:+ s)

/-- Models the Python substring test (sub in s). -/
def containsSub (s sub : List Char) : Bool := decide (sub <:+: s)

/-- Value of a hexadecimal digit character, as used by urllib.parse.unquote. -/
def hexDigit (c : Char) : Option Nat :=
  if '0' ≤ c ∧ c ≤ '9' then some (c.toNat - '0'.toNat)
  else if 'a' ≤ c ∧ c ≤ 'f' then some (c.toNat - 'a'.toNat + 10)
  else if 'A' ≤ c ∧ c ≤ 'F' then some (c.toNat - 'A'.toNat + 10)
  else none

/-- Models urllib.parse.unquote at the byte level: every valid percent
escape %XY is replaced by the character with code 16*X+Y, invalid escapes
are left literally in place and scanning resumes right after the percent
sign. -/
def unquoteAux : Nat → List Char → List Char
  | 0, s => s
  | fuel + 1, s =>
    match s with
    | [] => []
    | '%' :: a :: b :: rest =>
      match hexDigit a, hexDigit b with
      | some hi, some lo => Char.ofNat (16 * hi + lo) :: unquoteAux fuel rest
      | _, _ => '%' :: unquoteAux fuel (a :: b :: rest)
    | c :: rest => c :: unquoteAux fuel rest

/-- Entry point of the percent decoder; the fuel argument of unquoteAux is
a pure termination device and, being at least the string's length, is
never exhausted. -/
def unquote (s : List Char) : List Char := unquoteAux s.length s

/-- Models Python percent formatting (format % args) restricted to the
string directive, the directive the handler's log format strings use:
each occurrence of %s is replaced by the next argument. -/
def formatPct : List Char → List (List Char) → List Char
  | [], _ => []
  | '%' :: 's' :: rest, a :: args => a ++ formatPct rest args
  | c :: rest, args => c :: formatPct rest args

/-- Models fnmatch-style matching as used by pathlib.Path.glob on a single
path component: a star matches any (possibly empty) sequence of characters
(rendered here as choosing the suffix left for the rest of the pattern),
every other pattern character matches only itself. -/
def globMatch : List Char → List Char → Bool
  | [], s => s.isEmpty
  | p :: ps, s =>
    if p = '*' then
      (s.tails).any (fun t => globMatch ps t)
    else
      match s with
      | [] => false
      | c :: cs => (p == c) && globMatch ps cs

/-- One file of the served directory tree: its path (components relative to
the server's root directory) and its content bytes. -/
structure FSFile where
  path : List (List Char)
  content : List Nat
deriving DecidableEq

/-- Last path component, the Python Path.name of an entry. -/
def fileName (p : List (List Char)) : List Char := p.getLastD []

/-- Joins path components with slashes, as str() renders a relative Path. -/
def joinPath : List (List Char) → List Char
  | [] => []
  | [c] => c
  | c :: rest => c ++ '/' :: joinPath rest

/-- The three CORS headers that end_headers adds to every response
(audiomoth_server.py lines 30 to 32). -/
def corsHeaders : List (List Char × List Char) :=
  [(chars "Access-Control-Allow-Origin", chars "*"),
   (chars "Access-Control-Allow-Methods", chars "GET, OPTIONS"),
   (chars "Access-Control-Allow-Headers", chars "*")]

/-- The extension tuple of the endswith test on line 34 of
audiomoth_server.py. -/
def audioSuffixes : List (List Char) :=
  [chars ".wav", chars ".WAV", chars ".mp3", chars ".MP3"]

/-- The endswith test of end_headers, line 34, applied to the raw request
path. -/
def isAudioPath (p : List Char) : Bool :=
  audioSuffixes.any (fun e => endsWith p e)

/-- The two extra headers sent for audio paths (lines 35 and 37). -/
def audioHeaders : List (List Char × List Char) :=
  [(chars "Cache-Control", chars "max-age=3600"),
   (chars "Accept-Ranges", chars "bytes")]

/-- Models AudioMothHTTPRequestHandler.end_headers: given the raw request
path and the headers already queued by the handler, appends the CORS
headers always and the audio caching/range headers when the raw path ends
with one of the four audio extensions. -/
def end_headers (reqPath : List Char) (acc : List (List Char × List Char)) :
    List (List Char × List Char) :=
  acc ++ corsHeaders ++ (if isAudioPath reqPath then audioHeaders else [])

/-- Extension of a path, scanning the reversed basename for its last dot;
first argument is the reversed remaining basename, second the extension
characters collected so far. -/
def extOfAux : List Char → List Char → List Char
  | [], _ => []
  | '.' :: rest, acc => if rest.all (fun c => c == '.') then [] else '.' :: acc
  | c :: rest, acc => extOfAux rest (c :: acc)

/-- Models posixpath.splitext as used by guess_type: the extension is the
part of the last path component from its last dot on, and a basename made
only of leading dots has no extension. -/
def extOf (p : List Char) : List Char :=
  extOfAux ((p.splitOn '/').getLastD []).reverse []

/-- Models the extension-to-MIME registry consulted by the CPython
SimpleHTTPRequestHandler.guess_type (mimetypes), restricted to the
extensions this development mentions; unknown extensions fall back to
application/octet-stream exactly as in the library. -/
def extensions_map : List (List Char × List Char) :=
  [(chars ".html", chars "text/html"),
   (chars ".htm", chars "text/html"),
   (chars ".mp3", chars "audio/mpeg"),
   (chars ".wav", chars "audio/x-wav"),
   (chars ".txt", chars "text/plain")]

/-- Models CPython SimpleHTTPRequestHandler.guess_type: look the lowercased
extension up in the registry, defaulting to application/octet-stream. -/
def super_guess_type (p : List Char) : List Char :=
  (extensions_map.lookup (lowerStr (extOf p))).getD (chars "application/octet-stream")

/-- Models AudioMothHTTPRequestHandler.guess_type (lines 60 to 65): paths
whose lowercased form ends in .wav get audio/wav, every other path gets the
inherited registry answer. -/
def guess_type (p : List Char) : List Char :=
  if endsWith (lowerStr p) (chars ".wav") then chars "audio/wav"
  else super_guess_type p

/-- Models the query and fragment stripping at the start of
SimpleHTTPRequestHandler.translate_path: everything from the first
question mark or hash sign on is discarded. -/
def stripQuery (p : List Char) : List Char :=
  (p.takeWhile (fun c => c ≠ '?')).takeWhile (fun c => c ≠ '#')

/-- Models SimpleHTTPRequestHandler.translate_path: strip query and
fragment, percent-decode, split on slashes and drop empty, current and
parent components, yielding path components relative to the root. -/
def translate_path (p : List Char) : List (List Char) :=
  ((unquote (stripQuery p)).splitOn '/').filter
    (fun w => !(w.isEmpty || w == chars "." || w == chars ".."))

/-- Looks a translated path up in the served tree. -/
def lookupFile (fs : List FSFile) (p : List (List Char)) : Option FSFile :=
  fs.find? (fun f => f.path == p)

/-- An HTTP response: status code, headers in send order, body bytes. -/
structure Response where
  status : Nat
  headers : List (List Char × List Char)
  body : List Nat
deriving DecidableEq

/-- Models CPython SimpleHTTPRequestHandler.do_GET (send_head followed by
copyfile), the method the subclass delegates to on line 54.  The library
handler never reads the Range request header (the parameter is accepted
here to make that explicit): an existing file is always served whole with
status 200, and a path that resolves to nothing yields status 404 through
send_error (whose HTML error body is elided).  Both paths flush headers
through the subclass's end_headers. -/
def super_do_GET (fs : List FSFile) (reqPath : List Char)
    (_rangeHeader : Option (Nat × Nat)) : Response :=
  match lookupFile fs (translate_path reqPath) with
  | some f =>
      { status := 200
        headers := end_headers reqPath
          [(chars "Content-Type", guess_type (joinPath (translate_path reqPath)))]
        body := f.content }
  | none =>
      { status := 404
        headers := end_headers reqPath
          [(chars "Content-Type", chars "text/html;charset=utf-8")]
        body := [] }

/-- Models AudioMothHTTPRequestHandler.do_GET (lines 44 to 58): a request
for exactly /favicon.ico is answered 204 with no body before any
filesystem work; everything else is delegated to the inherited do_GET. -/
def do_GET (fs : List FSFile) (reqPath : List Char)
    (rangeHeader : Option (Nat × Nat)) : Response :=
  if reqPath = chars "/favicon.ico" then
    { status := 204, headers := end_headers reqPath [], body := [] }
  else super_do_GET fs reqPath rangeHeader

/-- The two HTTP methods the handler implements. -/
inductive Method
  | GET
  | OPTIONS
deriving DecidableEq

/-- Dispatches one request: do_OPTIONS (lines 40 to 42) answers 200 with
no body, GET goes through do_GET. -/
def handleRequest (fs : List FSFile) (m : Method) (reqPath : List Char)
    (rangeHeader : Option (Nat × Nat)) : Response :=
  match m with
  | Method.GET => do_GET fs reqPath rangeHeader
  | Method.OPTIONS => { status := 200, headers := end_headers reqPath [], body := [] }

/-- The exception classes relevant to do_GET's try/except. -/
inductive PyExc
  | brokenPipeError
  | connectionResetError
  | otherError
deriving DecidableEq

/-- The except clause on line 55 names BrokenPipeError and
ConnectionResetError. -/
def caughtByDoGET : PyExc → Bool
  | PyExc.brokenPipeError => true
  | PyExc.connectionResetError => true
  | PyExc.otherError => false

/-- Models the try/except around super().do_GET() (lines 53 to 58): when
the transport raises the given exception mid-response, a caught exception
class is swallowed (pass) and the handler returns normally; any other
exception propagates. -/
def do_GET_try (exc : Option PyExc) : Except PyExc Unit :=
  match exc with
  | none => Except.ok ()
  | some e => if caughtByDoGET e then Except.ok () else Except.error e

/-- The extension list of log_message's filter, line 73. -/
def logExts : List (List Char) :=
  [chars ".wav", chars ".WAV", chars ".html", chars ".mp3", chars ".MP3"]

/-- Models AudioMothHTTPRequestHandler.log_message (lines 67 to 80): with
no arguments nothing is printed; otherwise the formatted, percent-decoded
message is printed exactly when the first argument (the request line)
contains one of the five audio or HTML extensions.  The result is the
printed line, or none when the line is suppressed. -/
def log_message (format : List Char) (args : List (List Char)) : Option (List Char) :=
  match args with
  | [] => none
  | a :: _ =>
    if logExts.any (fun e => containsSub a e) then
      some (unquote (formatPct format args))
    else none

/-- Models AudioMothHTTPRequestHandler.log_error (lines 82 to 90): an
error whose first argument contains Broken pipe or Connection reset is
suppressed; everything else is forwarded to the inherited log_error, which
in CPython's BaseHTTPRequestHandler calls self.log_message, that is the
filtered log_message above. -/
def log_error (format : List Char) (args : List (List Char)) : Option (List Char) :=
  match args with
  | a :: _ =>
    if containsSub a (chars "Broken pipe") || containsSub a (chars "Connection reset") then
      none
    else log_message format args
  | [] => log_message format []

/-- The prioritized pattern list of find_html_report, line 98. -/
def report_patterns : List (List Char) :=
  [chars "audiomoth_reporte.html", chars "reporte.html", chars "*audiomoth*.html"]

/-- Models a pathlib glob call with the given number of leading star
components: a bare pattern is depth 0, a pattern below one star component
is depth 1 and so on; an entry matches when it lies exactly that deep and
its name matches the pattern.  Matches keep the scan order of the tree
list. -/
def globAtDepth (fs : List FSFile) (depth : Nat) (pat : List Char) : List FSFile :=
  fs.filter (fun f => f.path.length == depth + 1 && globMatch pat (fileName f.path))

/-- Models find_html_report (lines 93 to 117): every pattern is tried in
order against the root directory, the first match returning its bare name;
failing that, each pattern in order is tried one level down and then two
levels down, the first match returning its slash-joined relative path;
with no match at all the result is none. -/
def find_html_report (fs : List FSFile) : Option (List Char) :=
  match report_patterns.findSome?
      (fun pat => (globAtDepth fs 0 pat).head?.map (fun f => fileName f.path)) with
  | some n => some n
  | none =>
    report_patterns.findSome? (fun pat =>
      match (globAtDepth fs 1 pat).head? with
      | some f => some (joinPath f.path)
      | none => (globAtDepth fs 2 pat).head?.map (fun f => joinPath f.path))

/-- Modelled from the spec's words, for comparison with find_html_report:
a depth-major search that tries the root first, then all patterns one
level down, then all patterns two levels down, stopping at the first match
in that depth order. -/
def find_html_report_depth_first (fs : List FSFile) : Option (List Char) :=
  match report_patterns.findSome?
      (fun pat => (globAtDepth fs 0 pat).head?.map (fun f => fileName f.path)) with
  | some n => some n
  | none =>
    match report_patterns.findSome?
        (fun pat => (globAtDepth fs 1 pat).head?.map (fun f => joinPath f.path)) with
    | some n => some n
    | none =>
      report_patterns.findSome?
        (fun pat => (globAtDepth fs 2 pat).head?.map (fun f => joinPath f.path))

/-- Models count_wav_files (lines 120 to 123): the number of entries
anywhere in the tree whose name matches the glob star-dot-wav, plus the
number matching its uppercase variant. -/
def count_wav_files (fs : List FSFile) : Nat :=
  (fs.filter (fun f => globMatch (chars "*.wav") (fileName f.path))).length +
  (fs.filter (fun f => globMatch (chars "*.WAV") (fileName f.path))).length

/-! Helper lemmas about the glob matcher and the suffix tests. -/

theorem globMatch_lit (ps : List Char) (h : '*' ∉ ps) (s : List Char) :
    globMatch ps s = decide (ps = s) := by
  induction ps generalizing s with
  | nil => cases s <;> simp [globMatch]
  | cons p ps ih =>
    have hp : p ≠ '*' := fun hpe => h (hpe ▸ List.mem_cons_self p ps)
    have hps : '*' ∉ ps := fun hm => h (List.mem_cons_of_mem p hm)
    cases s with
    | nil => simp [globMatch, hp]
    | cons c cs =>
      simp only [globMatch, if_neg hp]
      rw [ih hps]
      by_cases hpc : p = c
      · subst hpc; simp [List.cons.injEq]
      · simp [hpc, List.cons.injEq]

theorem globMatch_star (ps : List Char) (h : '*' ∉ ps) (s : List Char) :
    globMatch ('*' :: ps) s = decide (ps <:+ s) := by
  have hunf : globMatch ('*' :: ps) s = (s.tails).any (fun t => globMatch ps t) := by
    simp [globMatch]
  have hlit : ∀ t, globMatch ps t = decide (ps = t) := fun t => globMatch_lit ps h t
  rw [hunf, Bool.eq_iff_iff]
  simp only [List.any_eq_true, hlit, decide_eq_true_eq]
  constructor
  · rintro ⟨t, ht, rfl⟩
    exact (List.mem_tails _ s).mp ht
  · intro hd
    exact ⟨ps, (List.mem_tails ps s).mpr hd, rfl⟩

theorem globMatch_star_wav (s : List Char) :
    globMatch (chars "*.wav") s = endsWith s (chars ".wav") := by
  have h1 : chars "*.wav" = '*' :: chars ".wav" := by decide
  rw [h1, globMatch_star _ (by decide) s]; rfl

theorem globMatch_star_WAV (s : List Char) :
    globMatch (chars "*.WAV") s = endsWith s (chars ".WAV") := by
  have h1 : chars "*.WAV" = '*' :: chars ".WAV" := by decide
  rw [h1, globMatch_star _ (by decide) s]; rfl

theorem wav_suffix_disjoint (s : List Char) :
    ¬(endsWith s (chars ".wav") = true ∧ endsWith s (chars ".WAV") = true) := by
  rintro ⟨h1, h2⟩
  have s1 : chars ".wav" <:+ s := of_decide_eq_true h1
  have s2 : chars ".WAV" <:+ s := of_decide_eq_true h2
  rcases List.suffix_or_suffix_of_suffix s1 s2 with h | h
  · exact absurd (List.IsSuffix.eq_of_length h (by decide)) (by decide)
  · exact absurd (List.IsSuffix.eq_of_length h (by decide)) (by decide)

theorem length_filter_disjoint {α : Type} (p q : α → Bool) (l : List α)
    (h : ∀ x, ¬(p x = true ∧ q x = true)) :
    (l.filter p).length + (l.filter q).length = (l.filter (fun x => p x || q x)).length := by
  induction l with
  | nil => simp
  | cons a l ih =>
    by_cases hp : p a = true
    · have hq : q a = false := by
        cases hqa : q a
        · rfl
        · exact absurd ⟨hp, hqa⟩ (h a)
      simp [List.filter_cons, hp, hq, Nat.succ_add]
      omega
    · rw [Bool.not_eq_true] at hp
      cases hq : q a <;> simp [List.filter_cons, hp, hq] <;> omega

/-! Helper lemmas about response headers. -/

theorem mem_end_headers_of_mem_cors (x : List Char × List Char) (p : List Char)
    (acc : List (List Char × List Char)) (hx : x ∈ corsHeaders) :
    x ∈ end_headers p acc := by
  unfold end_headers
  exact List.mem_append_left _ (List.mem_append_right acc hx)

theorem audio_headers_in_end_headers (p : List Char) (acc : List (List Char × List Char))
    (h : isAudioPath p = true) :
    (chars "Cache-Control", chars "max-age=3600") ∈ end_headers p acc ∧
    (chars "Accept-Ranges", chars "bytes") ∈ end_headers p acc := by
  have he : end_headers p acc = (acc ++ corsHeaders) ++ audioHeaders := by
    simp [end_headers, h]
  rw [he]
  exact ⟨List.mem_append_right (acc ++ corsHeaders) (by decide),
         List.mem_append_right (acc ++ corsHeaders) (by decide)⟩

theorem handleRequest_headers_shape (fs : List FSFile) (m : Method) (p : List Char)
    (r : Option (Nat × Nat)) :
    ∃ acc, (handleRequest fs m p r).headers = end_headers p acc ∧
      ∀ hdr ∈ acc, hdr.1 = chars "Content-Type" := by
  cases m with
  | OPTIONS => exact ⟨[], rfl, by simp⟩
  | GET =>
    simp only [handleRequest, do_GET]
    by_cases hfav : p = chars "/favicon.ico"
    · rw [if_pos hfav]
      exact ⟨[], rfl, by simp⟩
    · rw [if_neg hfav]
      unfold super_do_GET
      cases hl : lookupFile fs (translate_path p) with
      | some f =>
        simp only [hl]
        exact ⟨[(chars "Content-Type", guess_type (joinPath (translate_path p)))], rfl, by simp⟩
      | none =>
        simp only [hl]
        exact ⟨[(chars "Content-Type", chars "text/html;charset=utf-8")], rfl, by simp⟩

theorem suffix_through_query (s base q : List Char) (hq : '?' ∉ s)
    (h : s <:+ base ++ '?' :: q) : s <:+ q := by
  induction base with
  | nil =>
    rcases List.suffix_cons_iff.mp h with h | h
    · exact absurd (h ▸ List.mem_cons_self '?' q) hq
    · exact h
  | cons b bs ih =>
    rw [List.cons_append] at h
    rcases List.suffix_cons_iff.mp h with h | h
    · exact absurd (h ▸ List.mem_cons_of_mem b (List.mem_append_right bs (List.mem_cons_self '?' q))) hq
    · exact ih h

theorem not_audio_of_query (base q : List Char)
    (h1 : ¬ chars ".wav" <:+ q) (h2 : ¬ chars ".WAV" <:+ q)
    (h3 : ¬ chars ".mp3" <:+ q) (h4 : ¬ chars ".MP3" <:+ q) :
    isAudioPath (base ++ '?' :: q) = false := by
  simp only [isAudioPath, audioSuffixes, endsWith, List.any_cons, List.any_nil,
    Bool.or_eq_false_iff, decide_eq_false_iff_not]
  refine ⟨fun h => h1 (suffix_through_query _ base q (by decide) h),
          fun h => h2 (suffix_through_query _ base q (by decide) h),
          fun h => h3 (suffix_through_query _ base q (by decide) h),
          ⟨fun h => h4 (suffix_through_query _ base q (by decide) h), trivial⟩⟩

/-! Concrete directory trees used by the theorems below. -/

/-- A root holding one 500-byte WAV recording. -/
def fs500 : List FSFile := [FSFile.mk [chars "a.wav"] (List.replicate 500 0)]

/-- A root holding one mixed-case WAV recording. -/
def fsMixed : List FSFile := [FSFile.mk [chars "a.Wav"] [0, 1, 2]]

/-- A root holding one WAV recording, for the query-string theorems. -/
def fsRec : List FSFile := [FSFile.mk [chars "recording.wav"] [0, 1, 2, 3]]

/-- Three root-level WAV files, one other file, and two WAV files one
level down. -/
def fsCount : List FSFile :=
  [FSFile.mk [chars "a.wav"] [], FSFile.mk [chars "b.wav"] [],
   FSFile.mk [chars "c.wav"] [], FSFile.mk [chars "notes.txt"] [],
   FSFile.mk [chars "sub", chars "d.wav"] [], FSFile.mk [chars "sub", chars "e.wav"] []]

/-- A tree with a wildcard report match one level down and an exact-name
report match two levels down, and nothing at the root. -/
def fsC3 : List FSFile :=
  [FSFile.mk [chars "notes.txt"] [],
   FSFile.mk [chars "x", chars "x_audiomoth.html"] [],
   FSFile.mk [chars "a", chars "b", chars "audiomoth_reporte.html"] []]

/-- A tree with the report one level down and no match at the root. -/
def fsSub : List FSFile :=
  [FSFile.mk [chars "readme.txt"] [],
   FSFile.mk [chars "sub", chars "audiomoth_reporte.html"] []]

set_option maxRecDepth 8192 in
/-- C1: the handler inherits CPython's do_GET, which never consults the
Range header: a GET for an existing 500-byte audio file carrying
Range: bytes=0-99 is answered with status 200 (not 206), the full 500-byte
body (not the 100-byte span) and no Content-Range header, contradicting
the claim that such a request yields 206, Content-Range bytes 0-99/500 and
exactly 100 body bytes. -/
theorem c1_range_header_ignored :
    (handleRequest fs500 Method.GET (chars "/a.wav") (some (0, 99))).status = 200 ∧
    (handleRequest fs500 Method.GET (chars "/a.wav") (some (0, 99))).body = List.replicate 500 0 ∧
    ((handleRequest fs500 Method.GET (chars "/a.wav") (some (0, 99))).headers.all
      (fun hdr => !(hdr.1 == chars "Content-Range"))) = true := by
  decide

/-- C2 counterexample: a GET for an existing mixed-case audio file a.Wav
is served with status 200 but its response carries neither
Cache-Control: max-age=3600 nor Accept-Ranges: bytes, refuting the claim
that any letter case of the extension receives both headers. -/
theorem c2_mixed_case_counterexample :
    (handleRequest fsMixed Method.GET (chars "/a.Wav") none).status = 200 ∧
    (chars "Cache-Control", chars "max-age=3600") ∉
      (handleRequest fsMixed Method.GET (chars "/a.Wav") none).headers ∧
    (chars "Accept-Ranges", chars "bytes") ∉
      (handleRequest fsMixed Method.GET (chars "/a.Wav") none).headers := by
  decide

/-- C2 amended: every response to a request whose raw path ends in one of
the exact-case extensions .wav, .WAV, .mp3, .MP3 carries both
Cache-Control: max-age=3600 and Accept-Ranges: bytes. -/
theorem c2_exact_case_audio_headers :
    ∀ (fs : List FSFile) (m : Method) (p : List Char) (r : Option (Nat × Nat)),
      (chars ".wav" <:+ p ∨ chars ".WAV" <:+ p ∨ chars ".mp3" <:+ p ∨ chars ".MP3" <:+ p) →
      (chars "Cache-Control", chars "max-age=3600") ∈ (handleRequest fs m p r).headers ∧
      (chars "Accept-Ranges", chars "bytes") ∈ (handleRequest fs m p r).headers := by
  intro fs m p r h
  have ha : isAudioPath p = true := by
    simp only [isAudioPath, audioSuffixes, endsWith, List.any_cons, List.any_nil,
      Bool.or_eq_true, decide_eq_true_eq]
    rcases h with h | h | h | h
    · exact Or.inl h
    · exact Or.inr (Or.inl h)
    · exact Or.inr (Or.inr (Or.inl h))
    · exact Or.inr (Or.inr (Or.inr (Or.inl h)))
  obtain ⟨acc, hacc, -⟩ := handleRequest_headers_shape fs m p r
  rw [hacc]
  exact audio_headers_in_end_headers p acc ha

/-- C2 amended, witness at a concrete request. -/
theorem c2_exact_case_audio_headers_witness :
    (chars "Cache-Control", chars "max-age=3600") ∈
      (handleRequest [] Method.GET (chars "/x.wav") none).headers ∧
    (chars "Accept-Ranges", chars "bytes") ∈
      (handleRequest [] Method.GET (chars "/x.wav") none).headers :=
  c2_exact_case_audio_headers [] Method.GET (chars "/x.wav") none (Or.inl (by decide))

/-- C4: every response, for every tree, method, path and range header,
carries the three permissive CORS headers. -/
theorem c4_cors_on_every_response :
    ∀ (fs : List FSFile) (m : Method) (p : List Char) (r : Option (Nat × Nat)),
      (chars "Access-Control-Allow-Origin", chars "*") ∈ (handleRequest fs m p r).headers ∧
      (chars "Access-Control-Allow-Methods", chars "GET, OPTIONS") ∈ (handleRequest fs m p r).headers ∧
      (chars "Access-Control-Allow-Headers", chars "*") ∈ (handleRequest fs m p r).headers := by
  intro fs m p r
  obtain ⟨acc, hacc, -⟩ := handleRequest_headers_shape fs m p r
  rw [hacc]
  exact ⟨mem_end_headers_of_mem_cors _ p acc (by decide),
         mem_end_headers_of_mem_cors _ p acc (by decide),
         mem_end_headers_of_mem_cors _ p acc (by decide)⟩

/-- C7: a GET for exactly /favicon.ico is answered 204 with an empty body,
and the response is the same whatever the served tree holds, so no
filesystem lookup takes place. -/
theorem c7_favicon_short_circuit :
    ∀ (fs : List FSFile) (r : Option (Nat × Nat)),
      handleRequest fs Method.GET (chars "/favicon.ico") r =
        { status := 204, headers := end_headers (chars "/favicon.ico") [], body := [] } := by
  intro fs r
  simp [handleRequest, do_GET]

/-- C10 counterexample: a GET for the audio file recording.wav whose URL
carries the query string x=.wav does receive Cache-Control and
Accept-Ranges (the raw path still ends in .wav), refuting the claim that
every audio request carrying a query string loses the two headers. -/
theorem c10_query_string_counterexample :
    (handleRequest fsRec Method.GET (chars "/recording.wav?x=.wav") none).status = 200 ∧
    (chars "Cache-Control", chars "max-age=3600") ∈
      (handleRequest fsRec Method.GET (chars "/recording.wav?x=.wav") none).headers ∧
    (chars "Accept-Ranges", chars "bytes") ∈
      (handleRequest fsRec Method.GET (chars "/recording.wav?x=.wav") none).headers := by
  decide

/-- C10 amended: the audio-header decision tests the suffix of the raw,
unstripped request path, so a GET whose URL carries a query string omits
Cache-Control and Accept-Ranges whenever the query string itself does not
end in one of the four recognised audio extensions, even when the
underlying file is an audio file. -/
theorem c10_query_string_omits_audio_headers :
    ∀ (fs : List FSFile) (base q : List Char) (r : Option (Nat × Nat)),
      ¬ chars ".wav" <:+ q → ¬ chars ".WAV" <:+ q →
      ¬ chars ".mp3" <:+ q → ¬ chars ".MP3" <:+ q →
      (chars "Cache-Control", chars "max-age=3600") ∉
        (handleRequest fs Method.GET (base ++ '?' :: q) r).headers ∧
      (chars "Accept-Ranges", chars "bytes") ∉
        (handleRequest fs Method.GET (base ++ '?' :: q) r).headers := by
  intro fs base q r h1 h2 h3 h4
  have ha := not_audio_of_query base q h1 h2 h3 h4
  obtain ⟨acc, hacc, hct⟩ := handleRequest_headers_shape fs Method.GET (base ++ '?' :: q) r
  rw [hacc]
  have he : end_headers (base ++ '?' :: q) acc = (acc ++ corsHeaders) ++ [] := by
    simp [end_headers, ha]
  rw [he]
  constructor
  · intro hmem
    rw [List.append_nil] at hmem
    rcases List.mem_append.mp hmem with hm | hm
    · exact absurd (hct _ hm) (by decide)
    · exact absurd hm (by decide)
  · intro hmem
    rw [List.append_nil] at hmem
    rcases List.mem_append.mp hmem with hm | hm
    · exact absurd (hct _ hm) (by decide)
    · exact absurd hm (by decide)

/-- C10 amended, witness at the request of the claim's example. -/
theorem c10_query_string_omits_audio_headers_witness :
    (chars "Cache-Control", chars "max-age=3600") ∉
      (handleRequest fsRec Method.GET (chars "/recording.wav" ++ '?' :: chars "t=30") none).headers ∧
    (chars "Accept-Ranges", chars "bytes") ∉
      (handleRequest fsRec Method.GET (chars "/recording.wav" ++ '?' :: chars "t=30") none).headers :=
  c10_query_string_omits_audio_headers fsRec (chars "/recording.wav") (chars "t=30") none
    (by decide) (by decide) (by decide) (by decide)

/-- C6: the try/except around the inherited do_GET swallows BrokenPipeError
and ConnectionResetError so neither propagates out of the request handler,
and log_error suppresses every error whose message contains Broken pipe or
Connection reset, emitting no log entry for them. -/
theorem c6_benign_disconnect :
    do_GET_try (some PyExc.brokenPipeError) = Except.ok () ∧
    do_GET_try (some PyExc.connectionResetError) = Except.ok () ∧
    (∀ (f a : List Char) (rest : List (List Char)),
      containsSub a (chars "Broken pipe") = true ∨ containsSub a (chars "Connection reset") = true →
      log_error f (a :: rest) = none) := by
  refine ⟨rfl, rfl, ?_⟩
  intro f a rest h
  rcases h with h | h <;> simp [log_error, h]

/-- C6 witness at a concrete suppressed error message. -/
theorem c6_benign_disconnect_witness :
    log_error (chars "%s") [chars "error writing response: Broken pipe"] = none :=
  c6_benign_disconnect.2.2 (chars "%s") (chars "error writing response: Broken pipe") []
    (Or.inl (by decide))

/-- C9: with no format arguments nothing is logged, and otherwise the
request log line, percent-decoded after formatting, is printed exactly
when the first argument contains one of the five audio or HTML extensions
tested by the code; all other request log lines are suppressed. -/
theorem c9_log_filtering :
    (∀ f : List Char, log_message f [] = none) ∧
    (∀ (f a : List Char) (rest : List (List Char)),
      (logExts.any (fun e => containsSub a e) = true →
        log_message f (a :: rest) = some (unquote (formatPct f (a :: rest)))) ∧
      (logExts.any (fun e => containsSub a e) = false →
        log_message f (a :: rest) = none)) := by
  refine ⟨fun f => rfl, ?_⟩
  intro f a rest
  constructor <;> intro h <;> simp [log_message, h]

/-- C9 witness: one printed audio request line and one suppressed line. -/
theorem c9_log_filtering_witness :
    log_message (chars "%s 200 -") [chars "GET /REC_001.WAV HTTP/1.1"] =
      some (unquote (formatPct (chars "%s 200 -") [chars "GET /REC_001.WAV HTTP/1.1"])) ∧
    log_message (chars "%s 200 -") [chars "GET /logo.png HTTP/1.1"] = none :=
  ⟨(c9_log_filtering.2 (chars "%s 200 -") (chars "GET /REC_001.WAV HTTP/1.1") []).1 (by decide),
   (c9_log_filtering.2 (chars "%s 200 -") (chars "GET /logo.png HTTP/1.1") []).2 (by decide)⟩

/-- C5: every path whose extension lowercases to .wav is typed audio/wav
(whatever the letter case), and other extensions fall back to the registry
mapping, as the concrete .html and .mp3 lookups and the general fallback
equation show. -/
theorem c5_guess_type_wav :
    (∀ p e : List Char, lowerStr e = chars ".wav" → guess_type (p ++ e) = chars "audio/wav") ∧
    guess_type (chars "REC.WAV") = chars "audio/wav" ∧
    guess_type (chars "reporte.html") = chars "text/html" ∧
    guess_type (chars "song.mp3") = chars "audio/mpeg" ∧
    (∀ p : List Char, endsWith (lowerStr p) (chars ".wav") = false →
      guess_type p = super_guess_type p) := by
  refine ⟨?_, by decide, by decide, by decide, ?_⟩
  · intro p e he
    have hsuf : chars ".wav" <:+ lowerStr (p ++ e) := by
      show chars ".wav" <:+ List.map lowerChar (p ++ e)
      rw [List.map_append]
      rw [show List.map lowerChar e = chars ".wav" from he]
      exact List.suffix_append _ _
    simp [guess_type, endsWith, hsuf]
  · intro p hp
    simp [guess_type, hp]

/-- C5 witness: a mixed-case .WaV file is typed audio/wav, and a path not
ending in .wav takes the registry fallback. -/
theorem c5_guess_type_wav_witness :
    guess_type (chars "x" ++ chars ".WaV") = chars "audio/wav" ∧
    guess_type (chars "a.mp3") = super_guess_type (chars "a.mp3") :=
  ⟨c5_guess_type_wav.1 (chars "x") (chars ".WaV") (by decide),
   c5_guess_type_wav.2.2.2.2 (chars "a.mp3") (by decide)⟩

/-- C8: the recursive WAV count equals the number of files anywhere in the
tree whose name ends in .wav or .WAV, and on a tree with three root-level
and two subdirectory .wav files it is 5. -/
theorem c8_count_wav_files :
    (∀ fs : List FSFile, count_wav_files fs =
      (fs.filter (fun f => endsWith (fileName f.path) (chars ".wav") ||
                           endsWith (fileName f.path) (chars ".WAV"))).length) ∧
    count_wav_files fsCount = 5 := by
  refine ⟨?_, by decide⟩
  intro fs
  unfold count_wav_files
  simp only [globMatch_star_wav, globMatch_star_WAV]
  exact length_filter_disjoint _ _ fs (fun f => wav_suffix_disjoint (fileName f.path))

/-- C3 counterexample: on a tree with a wildcard report match one level
down and an exact-name match two levels down, the code returns the
deeper exact-name match (it exhausts both depths for each pattern before
moving to the next pattern), while the depth-order search the claim
describes would return the shallower wildcard match. -/
theorem c3_search_order_counterexample :
    find_html_report fsC3 = some (chars "a/b/audiomoth_reporte.html") ∧
    find_html_report_depth_first fsC3 = some (chars "x/x_audiomoth.html") ∧
    find_html_report fsC3 ≠ find_html_report_depth_first fsC3 := by
  decide

/-- C3 amended: discovery tries every pattern in priority order against
the root first; failing that, each pattern in priority order is tried one
level down and then two levels down before the next pattern is considered,
stopping at the first match; the sub/audiomoth_reporte.html example holds,
and when nothing within two levels matches any pattern the result is
none. -/
theorem c3_report_discovery :
    find_html_report fsSub = some (chars "sub/audiomoth_reporte.html") ∧
    (∀ fs : List FSFile,
      (∀ f ∈ fs, f.path.length ≤ 3 →
        ∀ pat ∈ report_patterns, globMatch pat (fileName f.path) = false) →
      find_html_report fs = none) := by
  refine ⟨by decide, ?_⟩
  intro fs h
  have hg : ∀ d : Nat, d + 1 ≤ 3 → ∀ pat ∈ report_patterns, globAtDepth fs d pat = [] := by
    intro d hd pat hpat
    rw [globAtDepth, List.filter_eq_nil_iff]
    intro f hf
    by_cases hlen : f.path.length = d + 1
    · have hm := h f hf (by omega) pat hpat
      simp [hlen, hm]
    · simp [hlen]
  have h0 : report_patterns.findSome?
      (fun pat => (globAtDepth fs 0 pat).head?.map (fun f => fileName f.path)) = none := by
    rw [List.findSome?_eq_none_iff]
    intro pat hpat
    rw [hg 0 (by omega) pat hpat]
    rfl
  have h12 : report_patterns.findSome? (fun pat =>
      match (globAtDepth fs 1 pat).head? with
      | some f => some (joinPath f.path)
      | none => (globAtDepth fs 2 pat).head?.map (fun f => joinPath f.path)) = none := by
    rw [List.findSome?_eq_none_iff]
    intro pat hpat
    rw [hg 1 (by omega) pat hpat, hg 2 (by omega) pat hpat]
    rfl
  rw [find_html_report, h0, h12]

/-- C3 amended, witness: a tree whose only file matches nothing yields
none. -/
theorem c3_report_discovery_witness :
    find_html_report [FSFile.mk [chars "readme.txt"] []] = none :=
  c3_report_discovery.2 [FSFile.mk [chars "readme.txt"] []] (by decide)
